import Mathlib

/-!
Shallow embedding of the `terraform-provider-appstore` repository
(`internal/provider/provider.go` and `internal/provider/user_resource.go`),
together with theorems settling the specification claims about the
user-resource controller.

Modelling conventions:
* Terraform framework values (`types.String`, `types.Bool`, `types.Set`) are
  three-valued: null, unknown, or a concrete value (`TFValue`).
* The Go multiple-return convention `(T, error)` is embedded as `GoResult T`:
  a value (the zero value on the error path) together with an optional error
  message.  Field access on the value is total, as it is on a Go struct value.
* The remote App Store Connect client is an external collaborator; it is a
  record of total response functions, so theorems can quantify over every
  possible client behaviour.
* Diagnostics accumulate in a list, mirroring the framework pattern of
  `resp.Diagnostics.Append` / `AddError` / `AddWarning` / `AddAttributeError`.
-/

/-- A Terraform framework value: null, unknown (not yet resolved during
planning), or a known concrete value. -/
inductive TFValue (α : Type) where
  | null
  | unknown
  | value (a : α)
deriving DecidableEq, Repr

/-- `types.Bool.ValueBool()`: the known boolean, `false` for null/unknown. -/
def TFValue.valueBool : TFValue Bool → Bool
  | .value b => b
  | _ => false

/-- `types.String.ValueString()`: the known string, `""` for null/unknown. -/
def TFValue.valueString : TFValue String → String
  | .value s => s
  | _ => ""

/-- `attr.Value.IsNull()`. -/
def TFValue.isNull {α : Type} : TFValue α → Bool
  | .null => true
  | _ => false

/-- Diagnostic severity (`diag.SeverityError` / `diag.SeverityWarning`). -/
inductive Severity where
  | error
  | warning
deriving DecidableEq, Repr

/-- One framework diagnostic: severity, optional attribute path (set by
`AddAttributeError`), summary and detail. -/
structure Diagnostic where
  severity : Severity
  attrPath : Option String
  summary : String
  detail : String
deriving DecidableEq, Repr

/-- `d.isError` holds for error-severity diagnostics. -/
def Diagnostic.isError (d : Diagnostic) : Bool :=
  d.severity == Severity.error

/-- Whether a diagnostics list contains an error (`Diagnostics.HasError()`). -/
def hasError (ds : List Diagnostic) : Bool :=
  ds.any Diagnostic.isError

/-- The Go `(T, error)` multiple return: the returned value (the zero value of
the type when the call failed) plus an optional error message. -/
structure GoResult (α : Type) where
  val : α
  err : Option String
deriving DecidableEq, Repr

/-- `users.User` from the `appstore-go` collaborator library, with the fields
the provider reads and writes.  `Roles` (a list of `users.UserRole`) is
embedded as a list of strings, as the provider itself converts roles to and
from string sets. -/
structure User where
  id : String
  firstName : String
  lastName : String
  username : String
  roles : List String
  allAppsVisible : Bool
  visibleAppIDs : List String
  provisioningAllowed : Bool
  hasAcceptedInvite : Bool
deriving DecidableEq, Repr

/-- The `appstore.Client` collaborator: `CreateUser`, `GetUser`, `ModifyUser`
return `(users.User, error)`; `DeleteUser` returns `error`. -/
structure Client where
  createUser : User → GoResult User
  getUser : String → GoResult User
  modifyUser : String → User → GoResult User
  deleteUser : String → Option String

/-- `UserResource`: the resource implementation, holding the shared client. -/
structure UserResource where
  client : Client

/-- `UserResourceModel`: the declared/observed resource data model
(`tfsdk` tags `id`, `first_name`, `last_name`, `email`, `roles`,
`all_apps_visible`, `visible_apps`, `provisioning_allowed`). -/
structure UserResourceModel where
  id : TFValue String
  firstName : TFValue String
  lastName : TFValue String
  email : TFValue String
  roles : TFValue (List String)
  allAppsVisible : TFValue Bool
  visibleApps : TFValue (List String)
  provisioningAllowed : TFValue Bool
deriving DecidableEq, Repr

/-- The attribute error emitted by `ValidateConfig`
(`AddAttributeError` at user_resource.go lines 134-138). -/
def invalidConfigDiag : Diagnostic :=
  { severity := Severity.error
    attrPath := some "visible_apps"
    summary := "Invalid Configuration"
    detail := "If `all_apps_visible` is set to true, the list of visible apps must not be provided." }

/-- `ValidateConfig` (user_resource.go lines 123-141): after decoding the
configuration, fail with an attribute error on `visible_apps` when
`all_apps_visible` is known true and `visible_apps` is not null.  The method
touches neither the client nor any state; its response carries only
diagnostics.  `r` is the receiver, carried to make client-independence
provable. -/
def UserResource.validateConfig (r : UserResource) (data : UserResourceModel) :
    List Diagnostic :=
  if data.allAppsVisible.valueBool && !data.visibleApps.isNull then
    [invalidConfigDiag]
  else []

/-- `types.Set.ElementsAs(ctx, &target, false)`: conversion of a set value
into a string slice. A known set converts cleanly; a null or unknown set
yields a conversion-error diagnostic and leaves the target slice empty
(`allowUnhandled` is `false` at both call sites). -/
def TFValue.elementsAs : TFValue (List String) → List Diagnostic × List String
  | .value l => ([], l)
  | .null =>
      ([{ severity := Severity.error
          attrPath := none
          summary := "Value Conversion Error"
          detail := "unhandled null value" }], [])
  | .unknown =>
      ([{ severity := Severity.error
          attrPath := none
          summary := "Value Conversion Error"
          detail := "unhandled unknown value" }], [])

/-- The `users.User` payload built from plan data by both `Create`
(user_resource.go lines 192-200) and `Update` (lines 281-289): zero-valued
`ID` and `HasAcceptedInvite` (not set by the struct literal), every other
field taken from the plan, with `roles` and `visibleAppIDs` the results of
the two `ElementsAs` conversions. -/
def payloadFromPlan (data : UserResourceModel) : User :=
  { id := ""
    firstName := data.firstName.valueString
    lastName := data.lastName.valueString
    username := data.email.valueString
    roles := data.roles.elementsAs.2
    allAppsVisible := data.allAppsVisible.valueBool
    visibleAppIDs := data.visibleApps.elementsAs.2
    provisioningAllowed := data.provisioningAllowed.valueBool
    hasAcceptedInvite := false }

/-- The field-by-field write-back performed after a successful client call
(`Create` lines 209-221, `Read` lines 239-252, `Update` lines 298-310): every
model field is overwritten from the server-returned user.  `SetValueFrom` on a
string slice always succeeds, producing a known set value. -/
def stateFromUser (u : User) : UserResourceModel :=
  { id := TFValue.value u.id
    firstName := TFValue.value u.firstName
    lastName := TFValue.value u.lastName
    email := TFValue.value u.username
    roles := TFValue.value u.roles
    allAppsVisible := TFValue.value u.allAppsVisible
    visibleApps := TFValue.value u.visibleAppIDs
    provisioningAllowed := TFValue.value u.provisioningAllowed }

/-- Response of a CRUD operation: accumulated diagnostics plus the state the
framework persists (`none` when `resp.State` was never set, i.e. remains
null, or — for `Delete` — when the framework goes on to remove the resource
 because the method returned without error diagnostics). -/
structure CrudResponse where
  diagnostics : List Diagnostic
  state : Option UserResourceModel
deriving DecidableEq, Repr

/-- `ClientError` diagnostic as emitted by `AddError("Client Error", ...)`. -/
def clientErrorDiag (op : String) (e : String) : Diagnostic :=
  { severity := Severity.error
    attrPath := none
    summary := "Client Error"
    detail := "Unable to " ++ op ++ " user, got error: " ++ e }

/-- `Create` (user_resource.go lines 174-225): convert the sets of the plan, call
`CreateUser` with the payload, and on failure add a `Client Error` diagnostic
and return with no state set; on success overwrite every field from the
server-echoed user and persist it. -/
def UserResource.create (r : UserResource) (plan : UserResourceModel) :
    CrudResponse :=
  let rolesDiags := plan.roles.elementsAs.1
  let appsDiags := plan.visibleApps.elementsAs.1
  let res := r.client.createUser (payloadFromPlan plan)
  match res.err with
  | some e =>
      { diagnostics := rolesDiags ++ appsDiags ++ [clientErrorDiag "create" e]
        state := none }
  | none =>
      { diagnostics := rolesDiags ++ appsDiags
        state := some (stateFromUser res.val) }

/-- `Read` (user_resource.go lines 227-261): call `GetUser` with the prior
state id field; the fields of the returned user are copied into the model *before* the
error is inspected (lines 239-252 precede line 254) — on the error path the
user is the Go zero value and the copies are discarded, a `Client Error`
diagnostic is added, and no state is persisted. -/
def UserResource.read (r : UserResource) (prior : UserResourceModel) :
    CrudResponse :=
  let res := r.client.getUser prior.id.valueString
  let data := stateFromUser res.val
  match res.err with
  | some e => { diagnostics := [clientErrorDiag "read" e], state := none }
  | none => { diagnostics := [], state := some data }

/-- `Update` (user_resource.go lines 263-314): convert the sets of the plan, call
`ModifyUser` with the prior id and the payload, and on failure add a
`Client Error` diagnostic with no state written; on success overwrite every
field from the server-echoed user and persist it. -/
def UserResource.update (r : UserResource) (plan : UserResourceModel) :
    CrudResponse :=
  let rolesDiags := plan.roles.elementsAs.1
  let appsDiags := plan.visibleApps.elementsAs.1
  let res := r.client.modifyUser plan.id.valueString (payloadFromPlan plan)
  match res.err with
  | some e =>
      { diagnostics := rolesDiags ++ appsDiags ++ [clientErrorDiag "update" e]
        state := none }
  | none =>
      { diagnostics := rolesDiags ++ appsDiags
        state := some (stateFromUser res.val) }

/-- `Delete` (user_resource.go lines 316-331): call `DeleteUser` with the
tracked id.  On failure a `Client Error` diagnostic is added and the method
returns; the framework then retains the prior tracked state (an errored
delete does not remove the resource).  On success the method returns clean
and the framework removes the tracked state. -/
def UserResource.delete (r : UserResource) (st : UserResourceModel) :
    CrudResponse :=
  match r.client.deleteUser st.id.valueString with
  | some e => { diagnostics := [clientErrorDiag "delete" e], state := some st }
  | none => { diagnostics := [], state := none }

/-- One declared schema attribute: its name, whether it is required, optional
or computed, and whether it carries a `RequiresReplace` plan modifier. -/
structure SchemaAttribute where
  name : String
  required : Bool
  optional : Bool
  computed : Bool
  requiresReplace : Bool
deriving DecidableEq, Repr

/-- Element type of a schema attribute, for the set attributes. -/
inductive AttrKind where
  | stringAttr
  | boolAttr
  | stringSetAttr
deriving DecidableEq, Repr

/-- `UserResource.Schema` (user_resource.go lines 50-101): the declared
attributes with their flags and plan modifiers, paired with their kinds. -/
def userSchemaAttributes : List (SchemaAttribute × AttrKind) :=
  [ ({ name := "id", required := false, optional := false, computed := true,
       requiresReplace := false }, AttrKind.stringAttr),
    ({ name := "first_name", required := true, optional := false,
       computed := false, requiresReplace := true }, AttrKind.stringAttr),
    ({ name := "last_name", required := true, optional := false,
       computed := false, requiresReplace := true }, AttrKind.stringAttr),
    ({ name := "email", required := true, optional := false, computed := false,
       requiresReplace := true }, AttrKind.stringAttr),
    ({ name := "roles", required := true, optional := false, computed := false,
       requiresReplace := false }, AttrKind.stringSetAttr),
    ({ name := "all_apps_visible", required := false, optional := true,
       computed := false, requiresReplace := false }, AttrKind.boolAttr),
    ({ name := "visible_apps", required := false, optional := true,
       computed := false, requiresReplace := false }, AttrKind.stringSetAttr),
    ({ name := "provisioning_allowed", required := true, optional := false,
       computed := false, requiresReplace := false }, AttrKind.boolAttr) ]

/-- The names of the declared attributes, in schema order. -/
def userAttrNames : List String :=
  userSchemaAttributes.map (fun a => a.1.name)

/-- Whether the schema gives attribute `n` a `RequiresReplace` modifier. -/
def schemaRequiresReplace (n : String) : Bool :=
  userSchemaAttributes.any (fun a => a.1.name == n && a.1.requiresReplace)

/-- `UserResource.Metadata` (user_resource.go lines 46-48): the resource type
name is the provider type name with `_user` appended. -/
def userResourceTypeName (providerTypeName : String) : String :=
  providerTypeName ++ "_user"

/-- `AppStoreConnectProvider.Metadata` (provider.go lines 39-42). -/
def providerTypeName : String := "appstoreconnect"

/-- The resource constructors defined in the `provider` package. -/
inductive ResourceCtor where
  | newExampleResource
  | newUserResource
deriving DecidableEq, Repr

/-- `AppStoreConnectProvider.Resources` (provider.go lines 83-87): the list
of resource constructors the provider registers with the framework. -/
def providerResources : List ResourceCtor :=
  [ResourceCtor.newExampleResource]

/-- Response of `ModifyPlan`: diagnostics plus the attribute paths appended
to `resp.RequiresReplace`. -/
structure ModifyPlanResponse where
  diagnostics : List Diagnostic
  requiresReplace : List String
deriving DecidableEq, Repr

/-- The warning added by `ModifyPlan` when the user has not accepted the
invite (user_resource.go lines 166-169). -/
def cannotModifyWarning : Diagnostic :=
  { severity := Severity.warning
    attrPath := none
    summary := "Cannot modify user"
    detail := "Users cannot be modified until they have accepted their email invite to App Store Connect. This resource will be destroyed and recreated." }

/-- The error added by `ModifyPlan` when the re-fetch fails
(user_resource.go lines 153-156). -/
def fetchErrorDiag (id e : String) : Diagnostic :=
  { severity := Severity.error
    attrPath := none
    summary := "Fetch error"
    detail := "Unable to fetch state of user " ++ id ++ ", got error: " ++ e }

/-- `ModifyPlan` (user_resource.go lines 143-172): when both prior state and
plan exist (modification, neither create nor destroy), re-fetch the user by
the id held in the prior state.  If the fetch fails, add a `Fetch error` diagnostic and
return at once.  If the fetched user has not accepted the invite, append
every declared attribute of the schema to `RequiresReplace` and add a
warning; otherwise leave the plan untouched. -/
def UserResource.modifyPlan (r : UserResource)
    (state plan : Option UserResourceModel) : ModifyPlanResponse :=
  match state, plan with
  | some data, some _ =>
      let res := r.client.getUser data.id.valueString
      match res.err with
      | some e =>
          { diagnostics := [fetchErrorDiag data.id.valueString e]
            requiresReplace := [] }
      | none =>
          if !res.val.hasAcceptedInvite then
            { diagnostics := [cannotModifyWarning]
              requiresReplace := userAttrNames }
          else
            { diagnostics := [], requiresReplace := [] }
  | _, _ => { diagnostics := [], requiresReplace := [] }

/-- The value of one declared attribute inside a model, for diffing. -/
inductive AttrValue where
  | str (v : TFValue String)
  | flag (v : TFValue Bool)
  | strSet (v : TFValue (List String))
deriving DecidableEq, Repr

/-- Projection of a model onto a declared attribute name. -/
def UserResourceModel.getAttr (m : UserResourceModel) (n : String) :
    Option AttrValue :=
  if n = "id" then some (AttrValue.str m.id)
  else if n = "first_name" then some (AttrValue.str m.firstName)
  else if n = "last_name" then some (AttrValue.str m.lastName)
  else if n = "email" then some (AttrValue.str m.email)
  else if n = "roles" then some (AttrValue.strSet m.roles)
  else if n = "all_apps_visible" then some (AttrValue.flag m.allAppsVisible)
  else if n = "visible_apps" then some (AttrValue.strSet m.visibleApps)
  else if n = "provisioning_allowed" then
    some (AttrValue.flag m.provisioningAllowed)
  else none

/-- Whether attribute `n` changes between prior state and planned state. -/
def attrDiffers (prior plan : UserResourceModel) (n : String) : Bool :=
  prior.getAttr n != plan.getAttr n

/-- The action the framework derives from a plan: no-op, in-place update, or
destroy-and-recreate. -/
inductive PlanAction where
  | noop
  | updateInPlace
  | replace
deriving DecidableEq, Repr

/-- Framework planning semantics for this resource: the resource is replaced
exactly when some declared attribute changes and that attribute either
carries a schema-level `RequiresReplace` plan modifier or was appended to
`resp.RequiresReplace` by `ModifyPlan`; with changes only to unmarked
attributes the update happens in place; with no changes the plan is a no-op. -/
def planAction (prior plan : UserResourceModel) (extraReplace : List String) :
    PlanAction :=
  if userAttrNames.all (fun n => !attrDiffers prior plan n) then
    PlanAction.noop
  else if userAttrNames.any (fun n =>
      attrDiffers prior plan n &&
        (schemaRequiresReplace n || extraReplace.contains n)) then
    PlanAction.replace
  else
    PlanAction.updateInPlace

/-! Concrete fixtures used by counterexamples and witnesses. -/

/-- The Go zero value of `users.User`. -/
def zeroUser : User :=
  { id := "", firstName := "", lastName := "", username := "", roles := []
    allAppsVisible := false, visibleAppIDs := [], provisioningAllowed := false
    hasAcceptedInvite := false }

/-- A remote user as the server may echo it back (note the normalized
first name, differing from any plan input). -/
def echoUser : User :=
  { id := "u-123", firstName := "John", lastName := "Smith"
    username := "x@y.com", roles := ["MARKETING"], allAppsVisible := false
    visibleAppIDs := [], provisioningAllowed := false
    hasAcceptedInvite := true }

/-- A client whose every call succeeds, echoing `echoUser`. -/
def echoClient : Client :=
  { createUser := fun _ => { val := echoUser, err := none }
    getUser := fun _ => { val := echoUser, err := none }
    modifyUser := fun _ _ => { val := echoUser, err := none }
    deleteUser := fun _ => none }

/-- A client whose every call succeeds but reports a user who has not yet
accepted the invite. -/
def pendingClient : Client :=
  { createUser := fun _ => { val := zeroUser, err := none }
    getUser := fun _ =>
      { val := { echoUser with hasAcceptedInvite := false }, err := none }
    modifyUser := fun _ _ => { val := zeroUser, err := none }
    deleteUser := fun _ => none }

/-- A client whose every call fails at the transport layer. -/
def failingClient : Client :=
  { createUser := fun _ => { val := zeroUser, err := some "boom" }
    getUser := fun _ => { val := zeroUser, err := some "boom" }
    modifyUser := fun _ _ => { val := zeroUser, err := some "boom" }
    deleteUser := fun _ => some "boom" }

/-- A fully-known prior state, as tracked after the Scenario A create. -/
def priorState : UserResourceModel :=
  { id := TFValue.value "u-123", firstName := TFValue.value "John"
    lastName := TFValue.value "Smith", email := TFValue.value "x@y.com"
    roles := TFValue.value ["MARKETING"]
    allAppsVisible := TFValue.value false
    visibleApps := TFValue.value []
    provisioningAllowed := TFValue.value false }

/-- A plan changing only `roles` (Scenario B). -/
def planNewRoles : UserResourceModel :=
  { priorState with roles := TFValue.value ["DEVELOPER"] }

/-- A plan changing only `email`. -/
def planNewEmail : UserResourceModel :=
  { priorState with email := TFValue.value "new@y.com" }

/-- A configuration with `all_apps_visible = true` and a present but empty
`visible_apps` set. -/
def emptyVisibleAppsCfg : UserResourceModel :=
  { priorState with
    allAppsVisible := TFValue.value true
    visibleApps := TFValue.value [] }

/-- A configuration with `all_apps_visible = true` and a non-empty
`visible_apps` set (Scenario C). -/
def conflictCfg : UserResourceModel :=
  { priorState with
    allAppsVisible := TFValue.value true
    visibleApps := TFValue.value ["1598625719"] }

/-! Claim theorems. -/

/-- C1: for every desired configuration in which `all_apps_visible` is true
and `visible_apps` is a non-empty set, `ValidateConfig` fails with an
error diagnostic whose attribute path is `visible_apps`, regardless of the
values of all other fields; the method consults no client (hence performs no
remote call) and its response carries no state. -/
theorem C1_validate_rejects_conflict (r : UserResource)
    (d : UserResourceModel) (l : List String)
    (h1 : d.allAppsVisible = TFValue.value true)
    (h2 : d.visibleApps = TFValue.value l) (h3 : l ≠ []) :
    (∃ diag ∈ r.validateConfig d,
        diag.severity = Severity.error ∧ diag.attrPath = some "visible_apps") ∧
    ∀ r₂ : UserResource, r₂.validateConfig d = r.validateConfig d := by
  have hv : d.allAppsVisible.valueBool = true := by
    rw [h1]; rfl
  have hn : d.visibleApps.isNull = false := by
    rw [h2]; rfl
  refine ⟨⟨invalidConfigDiag, ?_, rfl, rfl⟩, fun r₂ => rfl⟩
  simp [UserResource.validateConfig, hv, hn]

/-- Witness for C1 at the Scenario C configuration. -/
theorem C1_validate_rejects_conflict_witness :
    (∃ diag ∈ (UserResource.mk echoClient).validateConfig conflictCfg,
        diag.severity = Severity.error ∧ diag.attrPath = some "visible_apps") ∧
    ∀ r₂ : UserResource,
      r₂.validateConfig conflictCfg =
        (UserResource.mk echoClient).validateConfig conflictCfg :=
  C1_validate_rejects_conflict (UserResource.mk echoClient) conflictCfg
    ["1598625719"] rfl rfl (by decide)

/-- C2 counterexample: the claim also covers configurations where
`visible_apps` is present but an empty set; at such a configuration with
`all_apps_visible = true`, `ValidateConfig` does not succeed — the code
checks `IsNull`, not emptiness, so the present-but-empty set is rejected. -/
theorem C2_counterexample_empty_set_rejected :
    emptyVisibleAppsCfg.visibleApps = TFValue.value [] ∧
    (UserResource.mk echoClient).validateConfig emptyVisibleAppsCfg
      = [invalidConfigDiag] ∧
    hasError
      ((UserResource.mk echoClient).validateConfig emptyVisibleAppsCfg)
      = true := ⟨rfl, rfl, rfl⟩

/-- C2 (amended): for every desired configuration in which `all_apps_visible`
is false or unset (its known boolean is false), or in which `visible_apps`
is unset (null), `ValidateConfig` succeeds with no diagnostics.  A present
`visible_apps`, even an empty set, together with `all_apps_visible = true`,
fails validation instead. -/
theorem C2_validate_accepts (r : UserResource) (d : UserResourceModel)
    (h : d.allAppsVisible.valueBool = false ∨ d.visibleApps.isNull = true) :
    r.validateConfig d = [] := by
  unfold UserResource.validateConfig
  rcases h with h | h <;> simp [h]

/-- Witness for C2 at the Scenario A configuration (`all_apps_visible`
false). -/
theorem C2_validate_accepts_witness :
    (UserResource.mk echoClient).validateConfig priorState = [] :=
  C2_validate_accepts (UserResource.mk echoClient) priorState (Or.inl rfl)

/-- C3: when both prior state and plan exist and the re-fetched user has
`has_accepted_invite = false`, `ModifyPlan` marks every declared attribute as
requiring replacement and emits the warning; moreover the plan response is
independent of the `ModifyUser` operation of the client (no update call is
issued during planning). -/
theorem C3_pending_user_forces_replacement (r : UserResource)
    (st pl : UserResourceModel)
    (hfetch : (r.client.getUser st.id.valueString).err = none)
    (hinvite :
      (r.client.getUser st.id.valueString).val.hasAcceptedInvite = false) :
    (r.modifyPlan (some st) (some pl)).requiresReplace = userAttrNames ∧
    (∀ n ∈ userAttrNames,
        n ∈ (r.modifyPlan (some st) (some pl)).requiresReplace) ∧
    cannotModifyWarning ∈ (r.modifyPlan (some st) (some pl)).diagnostics ∧
    ∀ f, (UserResource.mk { r.client with modifyUser := f }).modifyPlan
        (some st) (some pl) = r.modifyPlan (some st) (some pl) := by
  have hres : r.modifyPlan (some st) (some pl)
      = { diagnostics := [cannotModifyWarning]
          requiresReplace := userAttrNames } := by
    simp only [UserResource.modifyPlan]
    rw [hfetch, hinvite]
    rfl
  refine ⟨by rw [hres], ?_, by rw [hres]; exact List.mem_singleton.mpr rfl,
    fun f => rfl⟩
  intro n hn
  rw [hres]
  exact hn

/-- Witness for C3: a pending user at the Scenario B plan. -/
theorem C3_pending_user_forces_replacement_witness :
    ((UserResource.mk pendingClient).modifyPlan (some priorState)
        (some planNewRoles)).requiresReplace = userAttrNames ∧
    (∀ n ∈ userAttrNames,
        n ∈ ((UserResource.mk pendingClient).modifyPlan (some priorState)
          (some planNewRoles)).requiresReplace) ∧
    cannotModifyWarning ∈ ((UserResource.mk pendingClient).modifyPlan
        (some priorState) (some planNewRoles)).diagnostics ∧
    ∀ f, (UserResource.mk
        { (UserResource.mk pendingClient).client with modifyUser := f
        }).modifyPlan (some priorState) (some planNewRoles)
      = (UserResource.mk pendingClient).modifyPlan (some priorState)
          (some planNewRoles) :=
  C3_pending_user_forces_replacement (UserResource.mk pendingClient)
    priorState planNewRoles rfl rfl

/-- C4: when both prior state and plan exist and the re-fetch fails,
`ModifyPlan` surfaces exactly the fetch-error diagnostic (an error) and
aborts: no attribute is marked as requiring replacement, and the response is
independent of all three mutating operations of the client (no mutation is
attempted). -/
theorem C4_fetch_failure_aborts_planning (r : UserResource)
    (st pl : UserResourceModel) (e : String)
    (hfetch : (r.client.getUser st.id.valueString).err = some e) :
    (r.modifyPlan (some st) (some pl)).diagnostics
      = [fetchErrorDiag st.id.valueString e] ∧
    hasError (r.modifyPlan (some st) (some pl)).diagnostics = true ∧
    (r.modifyPlan (some st) (some pl)).requiresReplace = [] ∧
    ∀ f g h, (UserResource.mk
        { getUser := r.client.getUser, createUser := f, modifyUser := g,
          deleteUser := h }).modifyPlan (some st) (some pl)
      = r.modifyPlan (some st) (some pl) := by
  have hres : r.modifyPlan (some st) (some pl)
      = { diagnostics := [fetchErrorDiag st.id.valueString e]
          requiresReplace := [] } := by
    simp only [UserResource.modifyPlan]
    rw [hfetch]
  exact ⟨by rw [hres], by rw [hres]; rfl, by rw [hres], fun f g h => rfl⟩

/-- Witness for C4: a failing client at the Scenario B plan. -/
theorem C4_fetch_failure_aborts_planning_witness :
    ((UserResource.mk failingClient).modifyPlan (some priorState)
        (some planNewRoles)).diagnostics
      = [fetchErrorDiag priorState.id.valueString "boom"] ∧
    hasError ((UserResource.mk failingClient).modifyPlan (some priorState)
        (some planNewRoles)).diagnostics = true ∧
    ((UserResource.mk failingClient).modifyPlan (some priorState)
        (some planNewRoles)).requiresReplace = [] ∧
    ∀ f g h, (UserResource.mk
        { getUser := (UserResource.mk failingClient).client.getUser,
          createUser := f, modifyUser := g, deleteUser := h }).modifyPlan
        (some priorState) (some planNewRoles)
      = (UserResource.mk failingClient).modifyPlan (some priorState)
          (some planNewRoles) :=
  C4_fetch_failure_aborts_planning (UserResource.mk failingClient)
    priorState planNewRoles "boom" rfl

/-- Helper: if a declared attribute that was marked for replacement changes,
the framework replaces the resource. -/
lemma planAction_replace_of (prior plan : UserResourceModel)
    (extra : List String) (n : String) (hn : n ∈ userAttrNames)
    (hd : attrDiffers prior plan n = true)
    (hr : (schemaRequiresReplace n || extra.contains n) = true) :
    planAction prior plan extra = PlanAction.replace := by
  unfold planAction
  have hany : userAttrNames.any (fun m =>
      attrDiffers prior plan m &&
        (schemaRequiresReplace m || extra.contains m)) = true :=
    List.any_eq_true.mpr ⟨n, hn, by
      show (attrDiffers prior plan n &&
        (schemaRequiresReplace n || extra.contains n)) = true
      rw [hd, hr]
      rfl⟩
  have hall : userAttrNames.all (fun m => !attrDiffers prior plan m)
      = false := by
    rcases hx : userAttrNames.all (fun m => !attrDiffers prior plan m)
    · rfl
    · have := List.all_eq_true.mp hx n hn
      rw [hd] at this
      simp at this
  rw [hall, hany]
  simp

/-- Helper: with an accepted invite the re-fetch leaves the plan untouched:
no diagnostics and nothing appended to `RequiresReplace`. -/
lemma modifyPlan_accepted (r : UserResource) (st pl : UserResourceModel)
    (hfetch : (r.client.getUser st.id.valueString).err = none)
    (hinvite :
      (r.client.getUser st.id.valueString).val.hasAcceptedInvite = true) :
    r.modifyPlan (some st) (some pl)
      = { diagnostics := [], requiresReplace := [] } := by
  simp only [UserResource.modifyPlan]
  rw [hfetch, hinvite]
  rfl

/-- Helper: if none of the three replace-marked attributes changes but some
declared attribute does, and `ModifyPlan` appended nothing, the framework
updates in place. -/
lemma planAction_inplace (prior plan : UserResourceModel)
    (h1 : attrDiffers prior plan "first_name" = false)
    (h2 : attrDiffers prior plan "last_name" = false)
    (h3 : attrDiffers prior plan "email" = false)
    (hsome : ∃ n ∈ userAttrNames, attrDiffers prior plan n = true) :
    planAction prior plan [] = PlanAction.updateInPlace := by
  unfold planAction
  obtain ⟨n, hn, hd⟩ := hsome
  have hall : userAttrNames.all (fun m => !attrDiffers prior plan m)
      = false := by
    rcases hx : userAttrNames.all (fun m => !attrDiffers prior plan m)
    · rfl
    · have := List.all_eq_true.mp hx n hn
      rw [hd] at this
      simp at this
  have hany : userAttrNames.any (fun m =>
      attrDiffers prior plan m &&
        (schemaRequiresReplace m || ([] : List String).contains m))
      = false := by
    rw [Bool.eq_false_iff]
    intro hx
    obtain ⟨m, hm, hp⟩ := List.any_eq_true.mp hx
    fin_cases hm <;> simp_all [schemaRequiresReplace, userSchemaAttributes]
  rw [hall, hany]
  simp

/-- C5: `first_name`, `last_name` and `email` carry schema-level
`RequiresReplace` plan modifiers, so any change to one of them forces
replacement (whatever `ModifyPlan` additionally appended); a change to any
other declared attribute alone — with the re-fetch succeeding on a user who
has accepted the invite, so `ModifyPlan` appends nothing — yields an
in-place update. -/
theorem C5_immutable_identity_attrs (r : UserResource)
    (prior plan : UserResourceModel) :
    (schemaRequiresReplace "first_name" = true ∧
     schemaRequiresReplace "last_name" = true ∧
     schemaRequiresReplace "email" = true) ∧
    ((attrDiffers prior plan "first_name" = true ∨
      attrDiffers prior plan "last_name" = true ∨
      attrDiffers prior plan "email" = true) →
      ∀ extra : List String, planAction prior plan extra
        = PlanAction.replace) ∧
    ((r.client.getUser prior.id.valueString).err = none →
     (r.client.getUser prior.id.valueString).val.hasAcceptedInvite = true →
     attrDiffers prior plan "first_name" = false →
     attrDiffers prior plan "last_name" = false →
     attrDiffers prior plan "email" = false →
     (∃ n ∈ userAttrNames, attrDiffers prior plan n = true) →
     planAction prior plan
       (r.modifyPlan (some prior) (some plan)).requiresReplace
       = PlanAction.updateInPlace) := by
  refine ⟨⟨by decide, by decide, by decide⟩, ?_, ?_⟩
  · intro h extra
    rcases h with h | h | h
    · exact planAction_replace_of prior plan extra "first_name"
        (by decide) h (by rw [show schemaRequiresReplace "first_name" = true
          from by decide]; rfl)
    · exact planAction_replace_of prior plan extra "last_name"
        (by decide) h (by rw [show schemaRequiresReplace "last_name" = true
          from by decide]; rfl)
    · exact planAction_replace_of prior plan extra "email"
        (by decide) h (by rw [show schemaRequiresReplace "email" = true
          from by decide]; rfl)
  · intro hfetch hinvite h1 h2 h3 hsome
    rw [modifyPlan_accepted r prior plan hfetch hinvite]
    exact planAction_inplace prior plan h1 h2 h3 hsome

/-- Witness for C5: changing `email` forces replacement; changing only
`roles` against an invite-accepted user updates in place. -/
theorem C5_immutable_identity_attrs_witness :
    (planAction priorState planNewEmail [] = PlanAction.replace) ∧
    (planAction priorState planNewRoles
        ((UserResource.mk echoClient).modifyPlan (some priorState)
          (some planNewRoles)).requiresReplace
      = PlanAction.updateInPlace) :=
  ⟨(C5_immutable_identity_attrs (UserResource.mk echoClient) priorState
      planNewEmail).2.1 (Or.inr (Or.inr (by decide))) [],
   (C5_immutable_identity_attrs (UserResource.mk echoClient) priorState
      planNewRoles).2.2 rfl rfl (by decide) (by decide) (by decide)
      ⟨"roles", by decide, by decide⟩⟩

/-- C6: the user resource would be exposed as `appstoreconnect_user` and its
schema matches the claim — but `AppStoreConnectProvider.Resources` registers
only the scaffold `NewExampleResource`, never `NewUserResource`, so the
provider does not register the user resource at all (contradicting the
repository README and the `appstoreconnect_user` acceptance test). -/
theorem C6_user_resource_not_registered :
    ResourceCtor.newUserResource ∉ providerResources ∧
    providerResources = [ResourceCtor.newExampleResource] ∧
    userResourceTypeName providerTypeName = "appstoreconnect_user" ∧
    userSchemaAttributes.map (fun a =>
        (a.1.name, a.1.required, a.1.optional, a.1.computed, a.2))
      = [("id", false, false, true, AttrKind.stringAttr),
         ("first_name", true, false, false, AttrKind.stringAttr),
         ("last_name", true, false, false, AttrKind.stringAttr),
         ("email", true, false, false, AttrKind.stringAttr),
         ("roles", true, false, false, AttrKind.stringSetAttr),
         ("all_apps_visible", false, true, false, AttrKind.boolAttr),
         ("visible_apps", false, true, false, AttrKind.stringSetAttr),
         ("provisioning_allowed", true, false, false, AttrKind.boolAttr)] := by
  refine ⟨by decide, rfl, rfl, by decide⟩

/-- C7: on every successful `Create` and `Update` the persisted state is
exactly the projection of the server-echoed user — every field, including
the server-assigned id — and coincides for any two plans for which the
server echoes the same user. -/
theorem C7_persist_server_echo (r : UserResource)
    (plan planU : UserResourceModel) (u v : User)
    (hc : r.client.createUser (payloadFromPlan plan)
      = { val := u, err := none })
    (hm : r.client.modifyUser planU.id.valueString (payloadFromPlan planU)
      = { val := v, err := none }) :
    (r.create plan).state = some (stateFromUser u) ∧
    (r.update planU).state = some (stateFromUser v) ∧
    (∀ (r₂ : UserResource) (plan₂ : UserResourceModel),
      r₂.client.createUser (payloadFromPlan plan₂)
          = { val := u, err := none } →
        (r₂.create plan₂).state = (r.create plan).state) ∧
    (∀ (r₂ : UserResource) (plan₂ : UserResourceModel),
      r₂.client.modifyUser plan₂.id.valueString (payloadFromPlan plan₂)
          = { val := v, err := none } →
        (r₂.update plan₂).state = (r.update planU).state) := by
  have hcs : (r.create plan).state = some (stateFromUser u) := by
    simp only [UserResource.create]
    rw [hc]
  have hus : (r.update planU).state = some (stateFromUser v) := by
    unfold UserResource.update
    rw [hm]
  refine ⟨hcs, hus, fun r₂ plan₂ h₂ => ?_, fun r₂ plan₂ h₂ => ?_⟩
  · rw [hcs]
    unfold UserResource.create
    rw [h₂]
  · rw [hus]
    unfold UserResource.update
    rw [h₂]

/-- Witness for C7 with the echoing client: the persisted state is the
projection of `echoUser`, not of the plan. -/
theorem C7_persist_server_echo_witness :
    ((UserResource.mk echoClient).create planNewRoles).state
      = some (stateFromUser echoUser) ∧
    ((UserResource.mk echoClient).update planNewRoles).state
      = some (stateFromUser echoUser) :=
  ⟨(C7_persist_server_echo (UserResource.mk echoClient) planNewRoles
      planNewRoles echoUser echoUser rfl rfl).1,
   (C7_persist_server_echo (UserResource.mk echoClient) planNewRoles
      planNewRoles echoUser echoUser rfl rfl).2.1⟩

/-- C8: whenever `CreateUser` returns an error, `Create` adds a
`Client Error` diagnostic and persists no state at all. -/
theorem C8_create_failure_persists_nothing (r : UserResource)
    (plan : UserResourceModel) (e : String)
    (hc : (r.client.createUser (payloadFromPlan plan)).err = some e) :
    (r.create plan).state = none ∧
    clientErrorDiag "create" e ∈ (r.create plan).diagnostics ∧
    hasError (r.create plan).diagnostics = true := by
  have hres : r.create plan
      = { diagnostics := plan.roles.elementsAs.1 ++
            plan.visibleApps.elementsAs.1 ++ [clientErrorDiag "create" e]
          state := none } := by
    simp only [UserResource.create]
    rw [hc]
  refine ⟨by rw [hres], by rw [hres]; simp, ?_⟩
  rw [hres]
  unfold hasError
  simp only [List.any_append]
  have : (clientErrorDiag "create" e).isError = true := rfl
  simp [List.any_cons, this]

/-- Witness for C8 with the failing client. -/
theorem C8_create_failure_persists_nothing_witness :
    ((UserResource.mk failingClient).create planNewRoles).state = none ∧
    clientErrorDiag "create" "boom"
      ∈ ((UserResource.mk failingClient).create planNewRoles).diagnostics ∧
    hasError ((UserResource.mk failingClient).create planNewRoles).diagnostics
      = true :=
  C8_create_failure_persists_nothing (UserResource.mk failingClient)
    planNewRoles "boom" rfl

/-- C9: when `DeleteUser` fails, `Delete` adds a `Client Error` diagnostic
and the tracked state is left in place; the tracked state is removed exactly
when `DeleteUser` succeeds. -/
theorem C9_delete_failure_keeps_state (r : UserResource)
    (st : UserResourceModel) :
    (∀ e, r.client.deleteUser st.id.valueString = some e →
      (r.delete st).state = some st ∧
      clientErrorDiag "delete" e ∈ (r.delete st).diagnostics ∧
      hasError (r.delete st).diagnostics = true) ∧
    (r.client.deleteUser st.id.valueString = none →
      (r.delete st).state = none ∧ (r.delete st).diagnostics = []) := by
  constructor
  · intro e he
    have hres : r.delete st
        = { diagnostics := [clientErrorDiag "delete" e], state := some st } := by
      unfold UserResource.delete
      rw [he]
    exact ⟨by rw [hres], by rw [hres]; simp, by rw [hres]; rfl⟩
  · intro he
    have hres : r.delete st = { diagnostics := [], state := none } := by
      unfold UserResource.delete
      rw [he]
    exact ⟨by rw [hres], by rw [hres]⟩

/-- Witness for C9: failure keeps the state, success removes it. -/
theorem C9_delete_failure_keeps_state_witness :
    (((UserResource.mk failingClient).delete priorState).state
        = some priorState ∧
      clientErrorDiag "delete" "boom"
        ∈ ((UserResource.mk failingClient).delete priorState).diagnostics ∧
      hasError ((UserResource.mk failingClient).delete priorState).diagnostics
        = true) ∧
    (((UserResource.mk echoClient).delete priorState).state = none ∧
      ((UserResource.mk echoClient).delete priorState).diagnostics = []) :=
  ⟨(C9_delete_failure_keeps_state (UserResource.mk failingClient)
      priorState).1 "boom" rfl,
   (C9_delete_failure_keeps_state (UserResource.mk echoClient)
      priorState).2 rfl⟩

/-- C10: `Read` is total on the client error path: the model fields are
copied from the returned user value before the error is checked, and for
every error-carrying result `Read` still produces exactly the `Client Error`
diagnostic and persists no state; the outcome is unchanged if the value part
of the fetch result is replaced by any other user, so the early field reads
cannot fault or influence the response. -/
theorem C10_read_total_on_error (r : UserResource)
    (prior : UserResourceModel) (e : String)
    (h : (r.client.getUser prior.id.valueString).err = some e) :
    (r.read prior).diagnostics = [clientErrorDiag "read" e] ∧
    hasError (r.read prior).diagnostics = true ∧
    (r.read prior).state = none ∧
    ∀ u : User, (UserResource.mk
        { r.client with getUser := fun i =>
            { val := u, err := (r.client.getUser i).err } }).read prior
      = r.read prior := by
  have hres : r.read prior
      = { diagnostics := [clientErrorDiag "read" e], state := none } := by
    simp only [UserResource.read]
    rw [h]
  refine ⟨by rw [hres], by rw [hres]; rfl, by rw [hres], fun u => ?_⟩
  have hres₂ : (UserResource.mk
      { r.client with getUser := fun i =>
          { val := u, err := (r.client.getUser i).err } }).read prior
      = { diagnostics := [clientErrorDiag "read" e], state := none } := by
    simp only [UserResource.read]
    rw [h]
  rw [hres, hres₂]

/-- Witness for C10 with the failing client (whose returned user is the Go
zero value). -/
theorem C10_read_total_on_error_witness :
    (((UserResource.mk failingClient).read priorState).diagnostics
        = [clientErrorDiag "read" "boom"]) ∧
    hasError ((UserResource.mk failingClient).read priorState).diagnostics
      = true ∧
    ((UserResource.mk failingClient).read priorState).state = none ∧
    ∀ u : User, (UserResource.mk
        { (UserResource.mk failingClient).client with getUser := fun i =>
            { val := u,
              err := ((UserResource.mk failingClient).client.getUser i).err }
        }).read priorState
      = (UserResource.mk failingClient).read priorState :=
  C10_read_total_on_error (UserResource.mk failingClient) priorState
    "boom" rfl
